import Mathlib

/-!
Shallow embedding of the signalr client (client.go and signalr.go).

client.go: an invocation registry correlating outgoing calls with replies,
and a callback registry routing server pushes to per-method subscriber
streams.  signalr.go: the negotiate / connect / start handshake.

Go channels are modelled as bounded buffers with a closed flag; a Go
`select` between a context-done branch and a channel-communication branch
is modelled by an explicit `Branch` choice together with a readiness
predicate stating which branches the Go runtime could pick (Go chooses
uniformly at random among ready branches, so every theorem quantifies
over all ready choices).  Contexts are modelled by their observable
done-bit.  JSON marshalling of caller payloads is external to this
repository and is modelled as pre-computed `Except` results.
-/

namespace SignalR

/-- Go error values produced by the code paths embedded here. -/
inductive GoError where
  | jsonError (msg : String)
  | invocationError (method : String) (id : Int) (message : String)
  | duplicateCallbackError (method : String)
  | contextCanceled
  | ctxErr
  | statusError (status : Nat)
  | wrapped (note : String) (inner : GoError)
  | other (msg : String)
  deriving DecidableEq

/-- errors.Is-style unwrap chain: does `e` carry `target`? -/
def GoError.carries : GoError → GoError → Bool
  | e, target =>
    match e with
    | .wrapped _ inner => decide (e = target) || inner.carries target
    | e => decide (e = target)

/-- A Go channel with capacity `cap`: a FIFO buffer plus a closed flag. -/
structure GoChan (α : Type) where
  cap : Nat
  buf : List α
  closed : Bool
  deriving DecidableEq

/-- A send on the channel is ready (will not block) iff the buffer has room.
Sends on closed channels panic in Go and never occur on live registry
entries, so readiness also requires the channel to be open. -/
def GoChan.sendReady (ch : GoChan α) : Bool :=
  !ch.closed && decide (ch.buf.length < ch.cap)

/-- A receive is ready (will not block) iff the buffer is non-empty or the
channel is closed (a closed empty channel yields the zero value). -/
def GoChan.recvReady (ch : GoChan α) : Bool :=
  !ch.buf.isEmpty || ch.closed

/-- One of the two branches of a Go select between a context-done case and
a channel-communication case. -/
inductive Branch where
  | ctx
  | comm
  deriving DecidableEq

/-- Association-list model of a Go map: lookup of the single binding. -/
def mapLookup {κ α : Type} [DecidableEq κ] (k : κ) : List (κ × α) → Option α
  | [] => none
  | (k', v) :: rest => if k' = k then some v else mapLookup k rest

/-- Association-list model of `m[k] = v` (bindings are kept unique). -/
def mapInsert {κ α : Type} [DecidableEq κ] (k : κ) (v : α) (m : List (κ × α)) :
    List (κ × α) :=
  (k, v) :: m.filter (fun p => p.1 ≠ k)

/-- Association-list model of `delete(m, k)`. -/
def mapErase {κ α : Type} [DecidableEq κ] (k : κ) (m : List (κ × α)) :
    List (κ × α) :=
  m.filter (fun p => p.1 ≠ k)

theorem mapLookup_filter_ne {κ α : Type} [DecidableEq κ] {k k' : κ}
    (h : k ≠ k') (m : List (κ × α)) :
    mapLookup k' (m.filter (fun p => p.1 ≠ k)) = mapLookup k' m := by
  induction m with
  | nil => rfl
  | cons p rest ih =>
      simp only [List.filter_cons, ne_eq, decide_not] at ih ⊢
      by_cases hp : p.1 = k
      · have hk : ¬ p.1 = k' := by rw [hp]; exact h
        simp [hp, hk, mapLookup, ih, h]
      · by_cases hk : p.1 = k'
        · simp [hp, hk, mapLookup, Ne.symm h]
        · simp [hp, hk, mapLookup, ih]

theorem mapLookup_insert {κ α : Type} [DecidableEq κ] (k : κ) (v : α)
    (m : List (κ × α)) : mapLookup k (mapInsert k v m) = some v := by
  simp [mapInsert, mapLookup]

theorem mapLookup_insert_ne {κ α : Type} [DecidableEq κ] {k k' : κ} (v : α)
    (m : List (κ × α)) (h : k ≠ k') :
    mapLookup k' (mapInsert k v m) = mapLookup k' m := by
  have := mapLookup_filter_ne (α := α) h m
  simpa [mapInsert, mapLookup, h] using this

theorem mapLookup_erase {κ α : Type} [DecidableEq κ] (k : κ)
    (m : List (κ × α)) : mapLookup k (mapErase k m) = none := by
  induction m with
  | nil => rfl
  | cons p rest ih =>
      by_cases hp : p.1 = k
      · simpa [mapErase, List.filter_cons, hp] using ih
      · simpa [mapErase, List.filter_cons, hp, mapLookup] using ih

theorem mapLookup_erase_ne {κ α : Type} [DecidableEq κ] {k k' : κ}
    (m : List (κ × α)) (h : k ≠ k') :
    mapLookup k' (mapErase k m) = mapLookup k' m :=
  mapLookup_filter_ne h m

/-- Greatest value of a Go int (64-bit on the targeted platforms). -/
def int64Max : Int := 2 ^ 63 - 1

/-- Least value of a Go int (64-bit on the targeted platforms). -/
def int64Min : Int := -(2 ^ 63)

/-- The counter bump `i.id++` of client.go: Go signed-integer overflow is
defined to wrap around, so incrementing the maximal int yields the
minimal one. -/
def int64Inc (n : Int) : Int := if n = int64Max then int64Min else n + 1

/-- Outbound hub message (client.go `ClientMsg`): hub, method, positional
args (opaque serialized values) and the correlation id (a Go int). -/
structure ClientMsg where
  hub : String
  method : String
  args : List String
  invocationID : Int
  deriving DecidableEq

/-- Inbound frame as consumed by client.go (`Message`): correlation id
(a Go int, 0 when the JSON field is absent — the Go zero value), result
payload, server error text, and the push sub-messages. -/
structure Message where
  invocationID : Int
  result : Option String
  error : String
  messages : List ClientMsg
  deriving DecidableEq

/-- client.go `invocationResult`: payload or error delivered to a caller. -/
structure InvocationResult where
  result : Option String
  err : Option GoError
  deriving DecidableEq

/-- client.go `Invocation`: a pending call handle.  The caller's context is
modelled by its done-bit, the one-slot buffered result channel by a
`GoChan`, and the eager error field `err` as set by `Client.Invoke`. -/
structure Invocation where
  ctxDone : Bool
  id : Int
  method : String
  ch : GoChan InvocationResult
  err : Option GoError
  deriving DecidableEq

/-- client.go `invocations`: the registry of in-flight calls.  The
correlation-id counter is a Go int, so its increment wraps on
overflow. -/
structure Invocations where
  id : Int
  data : List (Int × Invocation)
  deriving DecidableEq

/-- client.go `newInvocations`. -/
def newInvocations : Invocations :=
  { id := 1, data := [] }

/-- client.go `invocations.create`: allocate the next correlation id
(`i.id++` on a Go int, wrapping on overflow), register a fresh entry
with a one-slot buffered result channel. -/
def Invocations.create (i : Invocations) (ctxDone : Bool) (method : String) :
    Invocations × Invocation :=
  let id := i.id
  let inv : Invocation :=
    { ctxDone := ctxDone, id := id, method := method
      ch := { cap := 1, buf := [], closed := false }, err := none }
  ({ id := int64Inc id, data := mapInsert id inv i.data }, inv)

/-- client.go `invocations.remove`: drop the entry (if any) and close its
channel.  Returns the new registry and the removed handle's final state. -/
def Invocations.remove (i : Invocations) (id : Int) :
    Invocations × Option Invocation :=
  match mapLookup id i.data with
  | none => (i, none)
  | some inv =>
      ({ i with data := mapErase id i.data },
       some { inv with ch := { inv.ch with closed := true } })

/-- The result `invocations.process` builds from a frame for entry `inv`:
payload, or a structured `InvocationError` when the frame carries a
non-empty error string. -/
def processResult (inv : Invocation) (msg : Message) : InvocationResult :=
  { result := msg.result
    err := if msg.error ≠ "" then
        some (.invocationError inv.method msg.invocationID msg.error)
      else none }

/-- Readiness of a select branch in `invocations.process` (and in
`callbacks.removeAll`): the context-done case is ready iff the context is
done; the send case is ready iff the channel send would not block.  Go
picks uniformly among ready branches. -/
def sendSelectReady (ctxDone : Bool) (ch : GoChan α) : Branch → Bool
  | .ctx => ctxDone
  | .comm => ch.sendReady

/-- client.go `invocations.process`: if the frame's correlation id matches
a pending entry, race the caller's context against a send of the result,
then close the channel and delete the entry.  `choice` is the branch the
runtime picked.  Returns the new registry and the matched handle's final
state (the handle aliases the registry entry in Go). -/
def Invocations.process (i : Invocations) (msg : Message) (choice : Branch) :
    Invocations × Option Invocation :=
  match mapLookup msg.invocationID i.data with
  | none => (i, none)
  | some inv =>
      let ch' : GoChan InvocationResult :=
        match choice with
        | .ctx => { inv.ch with closed := true }
        | .comm => { inv.ch with buf := inv.ch.buf ++ [processResult inv msg], closed := true }
      ({ i with data := mapErase msg.invocationID i.data },
       some { inv with ch := ch' })

/-- client.go `invocations.removeAll`: close every pending entry's channel
(no result is sent) and clear the registry.  Returns the cleared registry
and each handle's final state. -/
def Invocations.removeAll (i : Invocations) :
    Invocations × List (Int × Invocation) :=
  ({ i with data := [] },
   i.data.map (fun p => (p.1, { p.2 with ch := { p.2.ch with closed := true } })))

/-- client.go `Invocation.Exec`: just the eager error field. -/
def Invocation.exec (r : Invocation) : Option GoError :=
  r.err

/-- The observable outcome of client.go `Invocation.Unmarshal`. -/
inductive UnmarshalOutcome where
  | preErr (e : GoError)
  | ctxError
  | resErr (e : GoError)
  | decode (payload : Option String)
  deriving DecidableEq

/-- Is the outcome a cancellation error (the caller context's error, or a
result carrying `context.Canceled`)? -/
def UnmarshalOutcome.isCancellation : UnmarshalOutcome → Bool
  | .ctxError => true
  | .resErr e => decide (e = .contextCanceled) || decide (e = .ctxErr)
  | _ => false

/-- Readiness for the select in `Invocation.Unmarshal` /
`CallbackStream.readResult`: context-done versus a channel receive. -/
def recvSelectReady (ctxDone : Bool) (ch : GoChan α) : Branch → Bool
  | .ctx => ctxDone
  | .comm => ch.recvReady

/-- client.go `Invocation.Unmarshal`: eager error first; then race the
caller's context against a receive.  A receive from a closed empty channel
yields the zero `invocationResult`, whose nil payload is handed to the
JSON decoder (`decode none`). -/
def Invocation.unmarshalOutcome (r : Invocation) (choice : Branch) :
    UnmarshalOutcome :=
  match r.err with
  | some e => .preErr e
  | none =>
      match choice with
      | .ctx => .ctxError
      | .comm =>
          match r.ch.buf with
          | res :: _ =>
              match res.err with
              | some e => .resErr e
              | none => .decode res.result
          | [] => .decode none

/-- The zero value of `ClientMsg` (what a closed-channel receive yields). -/
def zeroClientMsg : ClientMsg :=
  { hub := "", method := "", args := [], invocationID := 0 }

/-- client.go `callbackResult`: a delivered push sub-message or an error. -/
structure CallbackResult where
  message : ClientMsg
  err : Option GoError
  deriving DecidableEq

/-- client.go `CallbackStream`: the subscription handle.  Its context is a
child of the caller's (`context.WithCancel`), modelled by a done-bit that
is set when the parent is done or `cancel` has been called. -/
structure CallbackStream where
  ctxDone : Bool
  ch : GoChan CallbackResult
  deriving DecidableEq

/-- client.go `callbacks`: per-method subscription registry plus the
configured per-message processing deadline (seconds). -/
structure Callbacks where
  maxMessageProcessDuration : Nat
  data : List (String × CallbackStream)
  deriving DecidableEq

/-- client.go `newCallbacks`. -/
def newCallbacks (maxMessageProcessDuration : Nat) : Callbacks :=
  { maxMessageProcessDuration := maxMessageProcessDuration, data := [] }

/-- client.go `callbacks.create`: a duplicate-subscription error when a
registered stream's context is not yet done (the `select`-with-`default`
check is deterministic); otherwise register a fresh stream with a 16-slot
buffer under a child context of the caller's. -/
def Callbacks.create (c : Callbacks) (callerCtxDone : Bool) (method : String) :
    Callbacks × Except GoError CallbackStream :=
  let fresh : CallbackStream :=
    { ctxDone := callerCtxDone, ch := { cap := 16, buf := [], closed := false } }
  match mapLookup method c.data with
  | some cb =>
      if cb.ctxDone then
        ({ c with data := mapInsert method fresh c.data }, .ok fresh)
      else
        (c, .error (.duplicateCallbackError method))
  | none => ({ c with data := mapInsert method fresh c.data }, .ok fresh)

/-- Which branch of the three-way race in `callbacks.process` won for one
delivery attempt. -/
inductive DeliveryOutcome where
  | cancelled
  | delivered
  | timedOut
  deriving DecidableEq

/-- Readiness of each race branch, for a registry with deadline config `c`
and target stream `cb`: the cancellation case needs the stream's context
done; the send case needs buffer room; the deadline case needs the
timeout context to be done, i.e. the stream's context done, a zero
configured deadline, or a blocked send that waited the deadline out. -/
def deliveryReady (c : Callbacks) (cb : CallbackStream) : DeliveryOutcome → Bool
  | .cancelled => cb.ctxDone
  | .delivered => cb.ch.sendReady
  | .timedOut =>
      cb.ctxDone || !cb.ch.sendReady || decide (c.maxMessageProcessDuration = 0)

/-- Effect of one delivery attempt in `callbacks.process` on sub-message
`m`, given the looked-up stream `cb` and the race outcome.  Returns the
new registry and, when the stream was torn down, its final handle state. -/
def Callbacks.applyOutcome (c : Callbacks) (m : ClientMsg) (cb : CallbackStream) :
    DeliveryOutcome → Callbacks × Option (String × CallbackStream)
  | .cancelled =>
      let cb' : CallbackStream := { cb with ch := { cb.ch with closed := true } }
      ({ c with data := mapErase m.method c.data }, some (m.method, cb'))
  | .delivered =>
      let cb' : CallbackStream :=
        { cb with ch := { cb.ch with buf := cb.ch.buf ++ [{ message := m, err := none }] } }
      ({ c with data := mapInsert m.method cb' c.data }, none)
  | .timedOut =>
      let cb' : CallbackStream :=
        { ctxDone := true, ch := { cb.ch with closed := true } }
      ({ c with data := mapErase m.method c.data }, some (m.method, cb'))

/-- The loop body of client.go `callbacks.process` over the frame's
sub-messages, in server-given order.  A sub-message whose method has no
entry is skipped (and consumes no race outcome). -/
def Callbacks.processList : Callbacks → List ClientMsg → List DeliveryOutcome → Callbacks
  | c, [], _ => c
  | c, m :: rest, os =>
      match mapLookup m.method c.data with
      | none => Callbacks.processList c rest os
      | some cb =>
          match os with
          | [] => c
          | o :: os' => Callbacks.processList (c.applyOutcome m cb o).1 rest os'

/-- Well-formedness of a race-outcome oracle along the processing of a
frame: every consumed outcome is ready for the stream it applies to, and
the oracle is long enough. -/
def Callbacks.oracleOK : Callbacks → List ClientMsg → List DeliveryOutcome → Bool
  | _, [], _ => true
  | c, m :: rest, os =>
      match mapLookup m.method c.data with
      | none => Callbacks.oracleOK c rest os
      | some cb =>
          match os with
          | [] => false
          | o :: os' =>
              deliveryReady c cb o && Callbacks.oracleOK (c.applyOutcome m cb o).1 rest os'

/-- client.go `callbacks.process`: early return on a frame without push
sub-messages, else the delivery loop. -/
def Callbacks.process (c : Callbacks) (msg : Message) (os : List DeliveryOutcome) :
    Callbacks :=
  if msg.messages.isEmpty then c else Callbacks.processList c msg.messages os

/-- Final handle state of one stream under `callbacks.removeAll`: the
chosen select branch either observes the stream's context done (no send)
or delivers a `context.Canceled` result; the channel is closed either
way. -/
def removeAllStream (b : Branch) (cb : CallbackStream) : CallbackStream :=
  match b with
  | .ctx => { cb with ch := { cb.ch with closed := true } }
  | .comm =>
      { cb with ch :=
          { cb.ch with
            buf := cb.ch.buf ++ [{ message := zeroClientMsg, err := some .contextCanceled }]
            closed := true } }

/-- The per-entry iteration of client.go `callbacks.removeAll`. -/
def Callbacks.removeAllGo : List (String × CallbackStream) → List Branch →
    List (String × CallbackStream)
  | [], _ => []
  | (k, cb) :: rest, bs =>
      (k, removeAllStream (bs.headD .comm) cb) :: Callbacks.removeAllGo rest bs.tail

/-- Well-formedness of the branch choices for `callbacks.removeAll`. -/
def Callbacks.removeAllOK : List (String × CallbackStream) → List Branch → Bool
  | [], _ => true
  | (_, cb) :: rest, bs =>
      sendSelectReady cb.ctxDone cb.ch (bs.headD .comm)
        && Callbacks.removeAllOK rest bs.tail

/-- client.go `callbacks.removeAll`: deliver a cancellation result to every
live stream (racing its own context), close all buffers, clear the map.
Returns the cleared registry and each handle's final state. -/
def Callbacks.removeAll (c : Callbacks) (bs : List Branch) :
    Callbacks × List (String × CallbackStream) :=
  ({ c with data := [] }, Callbacks.removeAllGo c.data bs)

/-- client.go `CallbackStream.readResult`: a deterministic non-blocking
context check first, then — the context now known not done — a receive:
backlog head, or `context.Canceled` when the closed channel is drained.
`none` models a blocked read (open empty channel). -/
def CallbackStream.readResult (s : CallbackStream) :
    Option (CallbackResult × CallbackStream) :=
  if s.ctxDone then
    some ({ message := zeroClientMsg, err := some .ctxErr }, s)
  else
    match s.ch.buf with
    | r :: rest => some (r, { s with ch := { s.ch with buf := rest } })
    | [] =>
        if s.ch.closed then
          some ({ message := zeroClientMsg, err := some .contextCanceled }, s)
        else none

/-- client.go `Client`: hub name plus the two registries (the transport is
external). -/
structure Client where
  hub : String
  invocations : Invocations
  callbacks : Callbacks
  deriving DecidableEq

/-- client.go `NewClient`. -/
def NewClient (hub : String) (maxMessageProcessDuration : Nat) : Client :=
  { hub := hub, invocations := newInvocations
    callbacks := newCallbacks maxMessageProcessDuration }

/-- client.go `marshalArgs`: serialize each argument, stopping at the first
failure.  Serialization itself is external (encoding/json), so each
argument comes as its pre-computed result. -/
def marshalArgs : List (Except GoError String) → Except GoError (List String)
  | [] => .ok []
  | a :: rest =>
      match a with
      | .error e => .error e
      | .ok s =>
          match marshalArgs rest with
          | .error e => .error e
          | .ok l => .ok (s :: l)

/-- A nil Go channel: capacity 0, never ready. -/
def nilChan : GoChan InvocationResult :=
  { cap := 0, buf := [], closed := false }

/-- client.go `Client.Invoke`: marshal the args (on failure return an
error-only handle, registry untouched, nothing sent); create a registry
entry; build the outbound `ClientMsg`; write it (on failure remove the
entry and return an error-only handle).  `writeErr` is the outcome of the
external transport write; the third component is the write attempt. -/
def Client.Invoke (c : Client) (ctxDone : Bool) (method : String)
    (args : List (Except GoError String)) (writeErr : Option GoError) :
    Client × Invocation × Option ClientMsg :=
  match marshalArgs args with
  | .error e =>
      (c, { ctxDone := false, id := 0, method := "", ch := nilChan
            err := some (.wrapped "failed to marshal args" e) }, none)
  | .ok rawArgs =>
      let created := c.invocations.create ctxDone method
      let inv := created.2
      let req : ClientMsg :=
        { hub := c.hub, method := method, args := rawArgs, invocationID := inv.id }
      match writeErr with
      | some e =>
          ({ c with invocations := (created.1.remove inv.id).1 },
           { ctxDone := false, id := 0, method := "", ch := nilChan, err := some e },
           some req)
      | none => ({ c with invocations := created.1 }, inv, some req)

/-- An operation on the invocation registry, for stating lifetime
invariants over arbitrary interleavings. -/
inductive InvOp where
  | create (ctxDone : Bool) (method : String)
  | remove (id : Int)
  | process (msg : Message) (choice : Branch)
  | removeAll
  deriving DecidableEq

/-- Apply one registry operation (state part only). -/
def applyInvOp (i : Invocations) : InvOp → Invocations
  | .create d m => (i.create d m).1
  | .remove id => (i.remove id).1
  | .process msg b => (i.process msg b).1
  | .removeAll => i.removeAll.1

/-- Run a sequence of registry operations, collecting the correlation ids
handed out by the `create` calls, in order. -/
def runInvOps : Invocations → List InvOp → Invocations × List Int
  | i, [] => (i, [])
  | i, op :: rest =>
      let ids : List Int :=
        match op with
        | .create _ _ => [i.id]
        | _ => []
      let r := runInvOps (applyInvOp i op) rest
      (r.1, ids ++ r.2)

/-- Number of `create` operations in a sequence. -/
def countCreates (ops : List InvOp) : Nat :=
  ops.countP (fun op => match op with | .create _ _ => true | _ => false)

/-- One `create` step, for iterating long runs of create calls. -/
def createIter (i : Invocations) : Invocations := (i.create false "m").1

/-- A small mixed operation sequence for the id-allocation claim. -/
def c2Ops : List InvOp :=
  [.create false "a", .removeAll, .create true "b", .remove 1, .create false "c"]

namespace Handshake

/-- signalr.go scheme constants. -/
def HTTPS : String := "https"

def HTTP : String := "http"

def WSS : String := "wss"

def WS : String := "ws"

/-- A URL as built by signalr.go `makeURL`: scheme, host, path and query
parameters (parameter encoding order is external; membership is what the
repository relies on). -/
structure URL where
  scheme : String
  host : String
  path : String
  params : List (String × String)
  deriving DecidableEq

/-- signalr.go `Client` (handshake side): connection coordinates plus the
negotiated token / id; `connSet` models whether `c.Conn` was assigned. -/
structure Client where
  host : String
  endpoint : String
  protocol : String
  connectionData : String
  scheme : String
  connectionToken : String
  connectionID : String
  connSet : Bool
  deriving DecidableEq

/-- signalr.go `makeURL`: shared query parameters (`connectionData`,
`clientProtocol`, and `connectionToken` when non-empty), then the
command-specific path suffix, scheme and `transport` parameter. -/
def Client.makeURL (c : Client) (command : String) : URL :=
  let shared :=
    [("connectionData", c.connectionData), ("clientProtocol", c.protocol)]
  let params :=
    if c.connectionToken ≠ "" then
      shared ++ [("connectionToken", c.connectionToken)]
    else shared
  if command = "negotiate" then
    { scheme := c.scheme, host := c.host, path := c.endpoint ++ "/negotiate"
      params := params }
  else if command = "start" then
    { scheme := c.scheme, host := c.host, path := c.endpoint ++ "/start"
      params := params ++ [("transport", "webSockets")] }
  else if command = "connect" then
    { scheme := if c.scheme = HTTPS then WSS else WS, host := c.host
      path := c.endpoint ++ "/connect"
      params := params ++ [("transport", "webSockets")] }
  else
    { scheme := "", host := c.host, path := c.endpoint, params := params }

/-- The fields signalr.go `Negotiate` parses out of a 200 response body
(the timing fields are read but unused by the embedded code paths). -/
structure NegotiateParsed where
  url : String
  connectionToken : String
  connectionID : String
  deriving DecidableEq

/-- One HTTP GET outcome for `Negotiate`: transport failure, or a status
code together with the parse result of the body (body reading and JSON
decoding are external; their failure collapses into the `Except`). -/
inductive HttpResp where
  | fail (e : GoError)
  | ok (status : Nat) (body : Except GoError NegotiateParsed)

/-- The fixed retry interval of `Negotiate` (time.Minute), in seconds. -/
def retryInterval : Nat := 60

/-- The attempt loop of signalr.go `Negotiate` (`for i := 0; i < 5; i++`):
transport failure returns; 200 parses the body, stores the URL-escaped
token, the id and the returned endpoint; 503 fails immediately; any other
status records the error, sleeps one fixed interval and retries.  `esc`
is net/url.QueryEscape (external).  The third component is the list of
sleep durations performed. -/
def negotiateGo (esc : String → String) :
    Client → List HttpResp → Nat → Option GoError → List Nat →
    Client × Option GoError × List Nat
  | c, _, 0, err, sleeps => (c, err, sleeps)
  | c, [], _ + 1, _, sleeps => (c, some (.other "no response"), sleeps)
  | c, r :: rest, n + 1, _, sleeps =>
      match r with
      | .fail e => (c, some e, sleeps)
      | .ok status body =>
          if status = 200 then
            match body with
            | .error e => (c, some e, sleeps)
            | .ok parsed =>
                ({ c with connectionToken := esc parsed.connectionToken
                          connectionID := parsed.connectionID
                          endpoint := parsed.url }, none, sleeps)
          else if status = 503 then
            (c, some (.statusError status), sleeps)
          else
            negotiateGo esc c rest n (some (.statusError status))
              (sleeps ++ [retryInterval])

/-- signalr.go `Negotiate`: reset the connection token, then run the
five-attempt loop. -/
def Client.Negotiate (c : Client) (esc : String → String) (resps : List HttpResp) :
    Client × Option GoError × List Nat :=
  negotiateGo esc { c with connectionToken := "" } resps 5 none []

/-- gorilla/websocket TextMessage. -/
def textMessage : Nat := 1

/-- signalr.go: the `serverInitialized` sentinel for the `S` field. -/
def serverInitialized : Int := 1

/-- signalr.go `Message` as parsed in `Start` (only the `S` init flag
matters to the embedded paths; the rest is opaque). -/
structure HMessage where
  c : String
  s : Int
  g : String
  deriving DecidableEq

/-- signalr.go `Start`: GET the start URL and parse `Response` (outer
`Except`: transport/body failure; inner: JSON failure); require the
literal "started"; then one blocking read of a frame (type, payload parse
result); require a text frame whose `S` equals the sentinel; only then
assign the connection. -/
def Client.Start (c : Client)
    (httpBody : Except GoError (Except GoError String))
    (read : Except GoError (Nat × Except GoError HMessage)) :
    Client × Option GoError :=
  match httpBody with
  | .error e => (c, some e)
  | .ok parseRes =>
      match parseRes with
      | .error e => (c, some e)
      | .ok response =>
          if response ≠ "started" then
            (c, some (.other ("start response is not started: " ++ response)))
          else
            match read with
            | .error e => (c, some e)
            | .ok (t, payload) =>
                if t ≠ textMessage then
                  (c, some (.other ("unexpected websocket control type:" ++ toString t)))
                else
                  match payload with
                  | .error e => (c, some e)
                  | .ok pcm =>
                      if pcm.s ≠ serverInitialized then
                        (c, some (.other ("unexpected S value received from server: " ++ toString pcm.s)))
                      else ({ c with connSet := true }, none)

end Handshake

/-! Concrete states used to witness the theorems below. -/

/-- A pending invocation whose caller scope is not done. -/
def c1Inv : Invocation :=
  { ctxDone := false, id := 1, method := "ping"
    ch := { cap := 1, buf := [], closed := false }, err := none }

/-- A registry holding `c1Inv` under id 1. -/
def c1Invs : Invocations := { id := 2, data := [(1, c1Inv)] }

/-- A response frame for correlation id 1. -/
def c1Msg : Message :=
  { invocationID := 1, result := some "42", error := "", messages := [] }

/-- A pending invocation whose caller scope IS already done. -/
def c1cInv : Invocation :=
  { ctxDone := true, id := 1, method := "ping"
    ch := { cap := 1, buf := [], closed := false }, err := none }

/-- A registry holding `c1cInv` under id 1. -/
def c1cInvs : Invocations := { id := 2, data := [(1, c1cInv)] }

/-- A pending invocation (caller scope not done) for the teardown claim. -/
def c3Inv : Invocation :=
  { ctxDone := false, id := 1, method := "ping"
    ch := { cap := 1, buf := [], closed := false }, err := none }

/-- A registry holding `c3Inv`. -/
def c3Invs : Invocations := { id := 2, data := [(1, c3Inv)] }

/-- The final state of `c3Inv`'s handle after registry teardown. -/
def c3InvClosed : Invocation :=
  { ctxDone := false, id := 1, method := "ping"
    ch := { cap := 1, buf := [], closed := true }, err := none }

/-- A live callback stream with an empty buffer. -/
def c3Cb : CallbackStream :=
  { ctxDone := false, ch := { cap := 16, buf := [], closed := false } }

/-- A callback registry holding `c3Cb` under "evt". -/
def c3Cbs : Callbacks := { maxMessageProcessDuration := 30, data := [("evt", c3Cb)] }

/-- A live callback stream. -/
def c4Live : CallbackStream :=
  { ctxDone := false, ch := { cap := 16, buf := [], closed := false } }

/-- A callback stream whose scope is done. -/
def c4Dead : CallbackStream :=
  { ctxDone := true, ch := { cap := 16, buf := [], closed := false } }

/-- A registry with a live subscription to "m". -/
def c4CbsLive : Callbacks := { maxMessageProcessDuration := 30, data := [("m", c4Live)] }

/-- A registry whose subscription to "m" is done. -/
def c4CbsDead : Callbacks := { maxMessageProcessDuration := 30, data := [("m", c4Dead)] }

/-- A stalled subscriber: live scope, full 16-slot buffer. -/
def c5Full : CallbackStream :=
  { ctxDone := false
    ch := { cap := 16
            buf := List.replicate 16 { message := zeroClientMsg, err := none }
            closed := false } }

/-- A healthy subscriber with room. -/
def c5Cb : CallbackStream :=
  { ctxDone := false, ch := { cap := 16, buf := [], closed := false } }

/-- Registry with stalled "a" and healthy "b". -/
def c5Cbs : Callbacks :=
  { maxMessageProcessDuration := 30, data := [("a", c5Full), ("b", c5Cb)] }

/-- A push sub-message for "a". -/
def c5MsgA : ClientMsg := { hub := "hub", method := "a", args := [], invocationID := 0 }

/-- A push sub-message for "b". -/
def c5MsgB : ClientMsg := { hub := "hub", method := "b", args := [], invocationID := 0 }

/-- A handshake client before negotiation. -/
def hsClient : Handshake.Client :=
  { host := "example.com", endpoint := "/signalr", protocol := "1.5"
    connectionData := "cd", scheme := Handshake.HTTPS
    connectionToken := "", connectionID := "", connSet := false }

/-- The negotiate body of end-to-end scenario A. -/
def c6Parsed : Handshake.NegotiateParsed :=
  { url := "/signalr2", connectionToken := "tok", connectionID := "cid" }

/-- A push sub-message for a method with no subscriber. -/
def c9Msg : ClientMsg := { hub := "hub", method := "nosub", args := [], invocationID := 0 }

/-- A registry with a single live subscription to "b" (none for "nosub"). -/
def c9Cbs : Callbacks :=
  { maxMessageProcessDuration := 30
    data := [("b", { ctxDone := false, ch := { cap := 16, buf := [], closed := false } })] }

/-- A fresh client for the Invoke claim. -/
def c10Client : Client := NewClient "hub" 30

/-! Helper lemmas. -/

theorem remove_id (i : Invocations) (id : Int) : (i.remove id).1.id = i.id := by
  unfold Invocations.remove
  cases mapLookup id i.data <;> rfl

theorem process_id (i : Invocations) (msg : Message) (b : Branch) :
    (i.process msg b).1.id = i.id := by
  unfold Invocations.process
  cases mapLookup msg.invocationID i.data <;> rfl

theorem int64Inc_ne_max (n : Int) (h : n ≠ int64Max) : int64Inc n = n + 1 := by
  simp [int64Inc, h]

theorem countCreates_zero_ids (ops : List InvOp) :
    ∀ i : Invocations, countCreates ops = 0 → (runInvOps i ops).2 = [] := by
  induction ops with
  | nil => intro i _; rfl
  | cons op rest ih =>
      intro i h
      cases op with
      | create d m => simp [countCreates, List.countP_cons] at h
      | remove id =>
          have h' : countCreates rest = 0 := by
            simpa [countCreates, List.countP_cons] using h
          simpa [runInvOps] using ih _ h'
      | process msg b =>
          have h' : countCreates rest = 0 := by
            simpa [countCreates, List.countP_cons] using h
          simpa [runInvOps] using ih _ h'
      | removeAll =>
          have h' : countCreates rest = 0 := by
            simpa [countCreates, List.countP_cons] using h
          simpa [runInvOps] using ih _ h'

theorem runInvOps_ids_bounded (ops : List InvOp) :
    ∀ (s : Nat) (i : Invocations), i.id = (s : Int) →
    (s : Int) + countCreates ops ≤ int64Max + 1 →
    (runInvOps i ops).2 = (List.range' s (countCreates ops)).map (fun k => Int.ofNat k) := by
  induction ops with
  | nil => intro s i _ _; simp [runInvOps, countCreates]
  | cons op rest ih =>
      intro s i hid hbound
      cases op with
      | create d m =>
          have hc : countCreates (InvOp.create d m :: rest) = countCreates rest + 1 := by
            simp [countCreates, List.countP_cons]
          rw [hc] at hbound
          rw [hc, List.range'_succ, List.map_cons]
          by_cases hn : countCreates rest = 0
          · have hre : (runInvOps (applyInvOp i (.create d m)) rest).2 = [] :=
              countCreates_zero_ids rest _ hn
            simp only [runInvOps, hre]
            simp [hid, hn]
          · have h1 : (1 : Int) ≤ (countCreates rest : Int) := by
              exact_mod_cast Nat.one_le_iff_ne_zero.mpr hn
            have hs_ne : (s : Int) ≠ int64Max := by
              intro he
              rw [he] at hbound
              push_cast at hbound
              omega
            have hnew : (applyInvOp i (.create d m)).id = ((s + 1 : Nat) : Int) := by
              show int64Inc i.id = ((s + 1 : Nat) : Int)
              rw [hid, int64Inc_ne_max _ hs_ne]
              push_cast
              ring
            have hb2 : ((s + 1 : Nat) : Int) + countCreates rest ≤ int64Max + 1 := by
              push_cast at hbound ⊢
              omega
            have hrest := ih (s + 1) _ hnew hb2
            simp only [runInvOps, hrest]
            simp [hid]
      | remove id =>
          have hc : countCreates (InvOp.remove id :: rest) = countCreates rest := by
            simp [countCreates, List.countP_cons]
          rw [hc] at hbound
          rw [hc]
          have hnew : (applyInvOp i (.remove id)).id = (s : Int) := by
            rw [show (applyInvOp i (.remove id)).id = i.id from remove_id i id, hid]
          have hrest := ih s _ hnew hbound
          simpa [runInvOps] using hrest
      | process msg b =>
          have hc : countCreates (InvOp.process msg b :: rest) = countCreates rest := by
            simp [countCreates, List.countP_cons]
          rw [hc] at hbound
          rw [hc]
          have hnew : (applyInvOp i (.process msg b)).id = (s : Int) := by
            rw [show (applyInvOp i (.process msg b)).id = i.id from process_id i msg b, hid]
          have hrest := ih s _ hnew hbound
          simpa [runInvOps] using hrest
      | removeAll =>
          have hc : countCreates (InvOp.removeAll :: rest) = countCreates rest := by
            simp [countCreates, List.countP_cons]
          rw [hc] at hbound
          rw [hc]
          have hnew : (applyInvOp i .removeAll).id = (s : Int) := hid
          have hrest := ih s _ hnew hbound
          simpa [runInvOps] using hrest

/-- Claim C2 (amended): the correlation-id counter is a Go int — 64-bit,
wrapping on overflow — starting at 1 and bumped once per create.  For
every operation sequence performing at most 2^63 - 1 creates, the
assigned ids are exactly 1, 2, ... in order: strictly increasing and
never reused, whatever remove/process/removeAll operations interleave
(nothing resets the counter); each create registers its entry, carrying
the allocated id and a one-slot open buffered result channel.  Beyond
2^63 - 1 creates the counter wraps and the unbounded claim fails (see
the counterexample). -/
theorem c2_invocation_create_ids (ops : List InvOp) (i : Invocations)
    (d : Bool) (m : String)
    (hbound : (1 : Int) + countCreates ops ≤ int64Max + 1) :
    (runInvOps newInvocations ops).2
        = (List.range' 1 (countCreates ops)).map (fun k => Int.ofNat k)
      ∧ (runInvOps newInvocations ops).2.Pairwise (· < ·)
      ∧ (i.create d m).2.id = i.id
      ∧ (i.create d m).2.ch = { cap := 1, buf := [], closed := false }
      ∧ (i.create d m).1.id = int64Inc i.id
      ∧ mapLookup (i.create d m).2.id (i.create d m).1.data = some (i.create d m).2 := by
  have hids := runInvOps_ids_bounded ops 1 newInvocations (by norm_num [newInvocations])
    (by push_cast; omega)
  refine ⟨hids, ?_, rfl, rfl, rfl, by simp [Invocations.create, mapLookup_insert]⟩
  rw [hids]
  refine List.Pairwise.map _ ?_ (List.pairwise_lt_range' 1 (countCreates ops))
  intro a b hab
  exact Int.ofNat_lt.mpr hab

/-- Claim C2 witness: a mixed sequence of three creates, a removeAll and a
remove stays far below the wrap bound and hands out ids 1, 2, 3. -/
theorem c2_invocation_create_ids_witness :
    (runInvOps newInvocations c2Ops).2
        = (List.range' 1 (countCreates c2Ops)).map (fun k => Int.ofNat k)
      ∧ (runInvOps newInvocations c2Ops).2.Pairwise (· < ·)
      ∧ (newInvocations.create false "w").2.id = newInvocations.id
      ∧ (newInvocations.create false "w").2.ch = { cap := 1, buf := [], closed := false }
      ∧ (newInvocations.create false "w").1.id = int64Inc newInvocations.id
      ∧ mapLookup (newInvocations.create false "w").2.id
          (newInvocations.create false "w").1.data
          = some (newInvocations.create false "w").2 :=
  c2_invocation_create_ids c2Ops newInvocations false "w"
    (by
      have h3 : countCreates c2Ops = 3 := by decide
      rw [h3]
      norm_num [int64Max])

theorem createIter_id (n : Nat) :
    (createIter^[n] newInvocations).id = int64Inc^[n] (1 : Int) := by
  induction n with
  | zero => rfl
  | succ k ih =>
      rw [Function.iterate_succ_apply', Function.iterate_succ_apply']
      rw [show (createIter (createIter^[k] newInvocations)).id
          = int64Inc (createIter^[k] newInvocations).id from rfl]
      rw [ih]

theorem int64Inc_iter_val (n : Nat) :
    1 + (n : Int) ≤ int64Max → int64Inc^[n] (1 : Int) = 1 + n := by
  induction n with
  | zero => intro _; simp
  | succ k ih =>
      intro h
      rw [Function.iterate_succ_apply']
      have hk : 1 + (k : Int) ≤ int64Max := by
        push_cast at h ⊢
        omega
      rw [ih hk]
      have hne : (1 : Int) + k ≠ int64Max := by
        push_cast at h
        omega
      rw [int64Inc_ne_max _ hne]
      push_cast
      ring

/-- Claim C2 counterexample: the claim promises strictly increasing,
never-reused ids over every sequence of create calls, but the counter is
a wrapping Go int: after 2^63 - 2 creates the next create is assigned
the maximal int, and the create after that the minimal int — a strictly
smaller id, refuting unbounded strict increase. -/
theorem c2_counterexample :
    ((createIter^[2 ^ 63 - 2] newInvocations).create false "m").2.id = int64Max
    ∧ ((createIter^[2 ^ 63 - 1] newInvocations).create false "m").2.id = int64Min
    ∧ int64Min < int64Max := by
  have hinner : int64Inc^[2 ^ 63 - 2] (1 : Int) = int64Max := by
    rw [int64Inc_iter_val _ (by norm_num [int64Max])]
    norm_num [int64Max]
  have h1 : (createIter^[2 ^ 63 - 2] newInvocations).id = int64Max := by
    rw [createIter_id]
    exact hinner
  have h2 : (createIter^[2 ^ 63 - 1] newInvocations).id = int64Min := by
    have hsucc : (2 ^ 63 - 1 : Nat) = (2 ^ 63 - 2) + 1 := by norm_num
    rw [createIter_id, hsucc, Function.iterate_succ_apply', hinner]
    simp [int64Inc]
  have hc2 : ∀ j : Invocations, (j.create false "m").2.id = j.id := fun j => rfl
  refine ⟨?_, ?_, by norm_num [int64Min, int64Max]⟩
  · rw [hc2]
    exact h1
  · rw [hc2]
    exact h2

theorem process_not_found (i : Invocations) (msg : Message) (b : Branch)
    (h : mapLookup msg.invocationID i.data = none) : i.process msg b = (i, none) := by
  simp [Invocations.process, h]

/-- Claim C1 (amended): a frame whose correlation id matches no pending
entry leaves the registry unchanged; a matching frame resolves the
invocation exactly once — the entry is removed (a second processing of
the same id is a no-op), the result slot is closed, and the result is
delivered whenever the caller's scope is not yet done; when the scope is
already done the result is dropped if the scheduler picks the done
branch, but may still be delivered (Go select picks among ready branches
at random), the one deviation from the claim as stated. -/
theorem c1_process_frame (i : Invocations) (msg : Message) (b : Branch) :
    (mapLookup msg.invocationID i.data = none → i.process msg b = (i, none))
    ∧ (∀ inv, mapLookup msg.invocationID i.data = some inv →
        sendSelectReady inv.ctxDone inv.ch b = true →
        (i.process msg b).1.data = mapErase msg.invocationID i.data
        ∧ mapLookup msg.invocationID (i.process msg b).1.data = none
        ∧ (∀ b', (i.process msg b).1.process msg b' = ((i.process msg b).1, none))
        ∧ ∃ inv', (i.process msg b).2 = some inv'
            ∧ inv'.ch.closed = true
            ∧ (inv.ctxDone = false → b = Branch.comm)
            ∧ (b = Branch.comm → inv'.ch.buf = inv.ch.buf ++ [processResult inv msg])
            ∧ (b = Branch.ctx → inv'.ch.buf = inv.ch.buf ∧ inv.ctxDone = true)) := by
  constructor
  · exact process_not_found i msg b
  · intro inv h hready
    refine ⟨?_, ?_, ?_, ?_⟩
    · simp [Invocations.process, h]
    · simp [Invocations.process, h, mapLookup_erase]
    · intro b'
      have herase : mapLookup msg.invocationID (i.process msg b).1.data = none := by
        simp [Invocations.process, h, mapLookup_erase]
      exact process_not_found _ msg b' herase
    · cases b with
      | ctx =>
          refine ⟨{ inv with ch := { inv.ch with closed := true } }, ?_, rfl, ?_, ?_, ?_⟩
          · simp [Invocations.process, h]
          · intro hfalse
            rw [sendSelectReady, hfalse] at hready
            exact absurd hready (by simp)
          · intro hcomm
            exact absurd hcomm (by simp)
          · intro _
            exact ⟨rfl, by simpa [sendSelectReady] using hready⟩
      | comm =>
          refine ⟨{ inv with ch := { inv.ch with
              buf := inv.ch.buf ++ [processResult inv msg], closed := true } },
            ?_, rfl, ?_, ?_, ?_⟩
          · simp [Invocations.process, h]
          · intro _
            rfl
          · intro _
            rfl
          · intro hctx
            exact absurd hctx (by simp)

/-- Claim C1 witness: on a concrete registry whose pending entry's scope
is not done, processing a matching frame removes the entry, closes the
slot and delivers the payload. -/
theorem c1_process_frame_witness :
    (c1Invs.process c1Msg Branch.comm).1.data = mapErase c1Msg.invocationID c1Invs.data
    ∧ mapLookup c1Msg.invocationID (c1Invs.process c1Msg Branch.comm).1.data = none
    ∧ (∀ b', (c1Invs.process c1Msg Branch.comm).1.process c1Msg b'
        = ((c1Invs.process c1Msg Branch.comm).1, none))
    ∧ ∃ inv', (c1Invs.process c1Msg Branch.comm).2 = some inv'
        ∧ inv'.ch.closed = true
        ∧ (c1Inv.ctxDone = false → Branch.comm = Branch.comm)
        ∧ (Branch.comm = Branch.comm →
            inv'.ch.buf = c1Inv.ch.buf ++ [processResult c1Inv c1Msg])
        ∧ (Branch.comm = Branch.ctx → inv'.ch.buf = c1Inv.ch.buf ∧ c1Inv.ctxDone = true) :=
  (c1_process_frame c1Invs c1Msg Branch.comm).2 c1Inv (by decide) (by decide)

/-- Claim C1 counterexample: the claim says a result arriving for a caller
whose scope is already done is dropped; but with the scope done the send
branch of the select is still ready, and picking it delivers the result
into the slot. -/
theorem c1_counterexample :
    c1cInv.ctxDone = true
    ∧ sendSelectReady c1cInv.ctxDone c1cInv.ch Branch.comm = true
    ∧ ((c1cInvs.process c1Msg Branch.comm).2.map (fun inv' => inv'.ch.buf))
        = some [{ result := some "42", err := none }] := by
  decide

theorem readResult_closed_ne_none (s : CallbackStream) (h : s.ch.closed = true) :
    s.readResult ≠ none := by
  unfold CallbackStream.readResult
  by_cases hd : s.ctxDone
  · simp [hd]
  · cases hb : s.ch.buf with
    | nil => simp [hd, hb, h]
    | cons r rest => simp [hd, hb]

/-- Claim C3 (amended): registry-wide teardown leaves both registries
empty and closes every handle's channel, so no subsequent read blocks.
Every live callback stream is resolved with a cancellation result: its
read yields the stream's context error when the scope is done, and the
delivered `context.Canceled` result once any backlog is drained.  Pending
invocations, however, are only closed, not sent a cancellation result: a
caller whose own scope is not done reads the zero result and hands its
nil payload to the JSON decoder — an error, but not a cancellation
error. -/
theorem c3_teardown (i : Invocations) (c : Callbacks) (bs : List Branch)
    (b : Branch) (cb : CallbackStream) :
    i.removeAll.1.data = []
    ∧ (c.removeAll bs).1.data = []
    ∧ i.removeAll.2
        = i.data.map (fun p => (p.1, { p.2 with ch := { p.2.ch with closed := true } }))
    ∧ (∀ p, p ∈ i.removeAll.2 → p.2.ch.closed = true ∧ p.2.ch.recvReady = true)
    ∧ (∀ inv : Invocation, inv.err = none → inv.ctxDone = false →
        inv.ch.closed = true → inv.ch.buf = [] →
        recvSelectReady inv.ctxDone inv.ch Branch.ctx = false
        ∧ recvSelectReady inv.ctxDone inv.ch Branch.comm = true
        ∧ inv.unmarshalOutcome Branch.comm = .decode none
        ∧ (inv.unmarshalOutcome Branch.comm).isCancellation = false)
    ∧ (c.removeAll bs).2 = Callbacks.removeAllGo c.data bs
    ∧ (sendSelectReady cb.ctxDone cb.ch b = true →
        (removeAllStream b cb).ch.closed = true
        ∧ (removeAllStream b cb).readResult ≠ none
        ∧ (cb.ch.buf = [] → ∃ rs, (removeAllStream b cb).readResult = some rs
            ∧ (rs.1.err = some GoError.ctxErr ∨ rs.1.err = some GoError.contextCanceled))) := by
  refine ⟨rfl, rfl, rfl, ?_, ?_, rfl, ?_⟩
  · intro p hp
    rw [Invocations.removeAll] at hp
    obtain ⟨q, _, rfl⟩ := List.mem_map.mp hp
    exact ⟨rfl, by simp [GoChan.recvReady]⟩
  · intro inv he hd hc hb
    refine ⟨by simp [recvSelectReady, hd], by simp [recvSelectReady, GoChan.recvReady, hc], ?_, ?_⟩
    · simp [Invocation.unmarshalOutcome, he, hb]
    · simp [Invocation.unmarshalOutcome, he, hb, UnmarshalOutcome.isCancellation]
  · intro hready
    have hclosed : (removeAllStream b cb).ch.closed = true := by
      cases b <;> rfl
    refine ⟨hclosed, readResult_closed_ne_none _ hclosed, ?_⟩
    intro hbuf
    cases b with
    | ctx =>
        have hdone : cb.ctxDone = true := by
          simpa [sendSelectReady] using hready
        refine ⟨({ message := zeroClientMsg, err := some .ctxErr }, removeAllStream Branch.ctx cb), ?_, Or.inl rfl⟩
        simp [removeAllStream, CallbackStream.readResult, hdone]
    | comm =>
        by_cases hd : cb.ctxDone
        · refine ⟨({ message := zeroClientMsg, err := some .ctxErr }, removeAllStream Branch.comm cb), ?_, Or.inl rfl⟩
          simp [removeAllStream, CallbackStream.readResult, hd]
        · refine ⟨({ message := zeroClientMsg, err := some .contextCanceled }, ?_), ?_, Or.inr rfl⟩
          · exact { cb with ch := { cb.ch with buf := [], closed := true } }
          · simp [removeAllStream, CallbackStream.readResult, hd, hbuf]

/-- Claim C3 witness: tearing down a registry with one live empty-buffer
stream closes it and a read yields the delivered cancellation result. -/
theorem c3_teardown_witness :
    (removeAllStream Branch.comm c3Cb).ch.closed = true
    ∧ (removeAllStream Branch.comm c3Cb).readResult ≠ none
    ∧ (c3Cb.ch.buf = [] → ∃ rs, (removeAllStream Branch.comm c3Cb).readResult = some rs
        ∧ (rs.1.err = some GoError.ctxErr ∨ rs.1.err = some GoError.contextCanceled)) :=
  (c3_teardown c3Invs c3Cbs [] Branch.comm c3Cb).2.2.2.2.2.2 (by decide)

/-- Claim C3 counterexample: after `invocations.removeAll` a pending
invocation whose caller scope is not done can only take the receive
branch, and its read outcome is the JSON decode of a nil payload — not a
cancellation error, contradicting the claim that every such read yields
a cancellation error. -/
theorem c3_counterexample :
    c3Invs.removeAll.1.data = []
    ∧ c3Invs.removeAll.2 = [(1, c3InvClosed)]
    ∧ recvSelectReady c3InvClosed.ctxDone c3InvClosed.ch Branch.ctx = false
    ∧ recvSelectReady c3InvClosed.ctxDone c3InvClosed.ch Branch.comm = true
    ∧ (c3InvClosed.unmarshalOutcome Branch.comm).isCancellation = false := by
  decide

/-- Claim C4: `callbacks.create` fails with a duplicate-subscription error
exactly when an entry for the method exists whose scope is not yet done;
otherwise it registers a fresh stream with a 16-slot open buffer under a
child scope of the caller's, so re-subscription succeeds once the
previous stream's scope is observed as done. -/
theorem c4_callback_create (c : Callbacks) (d : Bool) (m : String) :
    ((c.create d m).2 = Except.error (.duplicateCallbackError m)
        ↔ ∃ cb, mapLookup m c.data = some cb ∧ cb.ctxDone = false)
    ∧ (∀ cb, (c.create d m).2 = Except.ok cb →
        cb = { ctxDone := d, ch := { cap := 16, buf := [], closed := false } }
        ∧ (c.create d m).1.data = mapInsert m cb c.data
        ∧ mapLookup m (c.create d m).1.data = some cb)
    ∧ (∀ cb, mapLookup m c.data = some cb → cb.ctxDone = true →
        (c.create d m).2
          = Except.ok { ctxDone := d, ch := { cap := 16, buf := [], closed := false } }) := by
  cases hl : mapLookup m c.data with
  | none =>
      refine ⟨?_, ?_, ?_⟩
      · constructor
        · intro h
          simp [Callbacks.create, hl] at h
        · rintro ⟨cb, hcb, _⟩
          exact Option.noConfusion hcb
      · intro cb h
        simp only [Callbacks.create, hl] at h
        rw [Except.ok.injEq] at h
        subst h
        exact ⟨rfl, by simp [Callbacks.create, hl], by simp [Callbacks.create, hl, mapLookup_insert]⟩
      · intro cb hcb _
        exact Option.noConfusion hcb
  | some cb0 =>
      by_cases hd : cb0.ctxDone
      · refine ⟨?_, ?_, ?_⟩
        · constructor
          · intro h
            simp [Callbacks.create, hl, hd] at h
          · rintro ⟨cb, hcb, hfalse⟩
            rw [Option.some.injEq] at hcb
            subst hcb
            rw [hd] at hfalse
            exact Bool.noConfusion hfalse
        · intro cb h
          simp only [Callbacks.create, hl, if_pos hd] at h
          rw [Except.ok.injEq] at h
          subst h
          exact ⟨rfl, by simp [Callbacks.create, hl, hd], by simp [Callbacks.create, hl, hd, mapLookup_insert]⟩
        · intro cb _ _
          simp [Callbacks.create, hl, hd]
      · have hd' : cb0.ctxDone = false := by
          simpa using hd
        refine ⟨?_, ?_, ?_⟩
        · constructor
          · intro _
            exact ⟨cb0, rfl, hd'⟩
          · intro _
            simp [Callbacks.create, hl, hd']
        · intro cb h
          simp [Callbacks.create, hl, hd'] at h
        · intro cb hcb hdone
          rw [Option.some.injEq] at hcb
          subst hcb
          rw [hdone] at hd
          exact absurd rfl hd

/-- Claim C4 witness: a live subscription to "m" makes a second subscribe
fail with the duplicate error; once the scope is done, subscribing again
succeeds with a fresh 16-slot stream. -/
theorem c4_callback_create_witness :
    (c4CbsLive.create false "m").2 = Except.error (.duplicateCallbackError "m")
    ∧ (c4CbsDead.create false "m").2
        = Except.ok { ctxDone := false, ch := { cap := 16, buf := [], closed := false } } :=
  ⟨(c4_callback_create c4CbsLive false "m").1.mpr ⟨c4Live, by decide, by decide⟩,
   (c4_callback_create c4CbsDead false "m").2.2 c4Dead (by decide) (by decide)⟩

theorem applyOutcome_lookup_ne (c : Callbacks) (p : ClientMsg) (cb : CallbackStream)
    (o : DeliveryOutcome) (k : String) (hk : k ≠ p.method) :
    mapLookup k (c.applyOutcome p cb o).1.data = mapLookup k c.data := by
  cases o with
  | cancelled => simpa [Callbacks.applyOutcome] using mapLookup_erase_ne c.data (Ne.symm hk)
  | delivered => simpa [Callbacks.applyOutcome] using mapLookup_insert_ne _ c.data (Ne.symm hk)
  | timedOut => simpa [Callbacks.applyOutcome] using mapLookup_erase_ne c.data (Ne.symm hk)

theorem processList_skip_dead (m : ClientMsg) (pre : List ClientMsg) :
    ∀ (c : Callbacks) (post : List ClientMsg) (os : List DeliveryOutcome),
    mapLookup m.method c.data = none →
    Callbacks.processList c (pre ++ m :: post) os
      = Callbacks.processList c (pre ++ post) os := by
  induction pre with
  | nil =>
      intro c post os h
      simp [Callbacks.processList, h]
  | cons p pre ih =>
      intro c post os h
      simp only [List.cons_append]
      cases hl : mapLookup p.method c.data with
      | none =>
          simp only [Callbacks.processList, hl]
          exact ih c post os h
      | some cb =>
          cases os with
          | nil => simp only [Callbacks.processList, hl]
          | cons o os' =>
              simp only [Callbacks.processList, hl]
              have hk : m.method ≠ p.method := by
                intro he
                rw [he] at h
                rw [h] at hl
                exact Option.noConfusion hl
              refine ih _ post os' ?_
              rw [applyOutcome_lookup_ne c p cb o m.method hk]
              exact h

/-- Claim C9: a push sub-message for a method with no live subscriber is
dropped: it changes nothing, consumes nothing, and the frame processes
exactly as if the sub-message were absent, wherever it sits in the
frame — so delivery to the other subscribers of the same frame is
unaffected. -/
theorem c9_unsubscribed (c : Callbacks) (m : ClientMsg) (pre post : List ClientMsg)
    (os : List DeliveryOutcome) (h : mapLookup m.method c.data = none) :
    Callbacks.processList c [m] os = c
    ∧ Callbacks.processList c (m :: post) os = Callbacks.processList c post os
    ∧ Callbacks.processList c (pre ++ m :: post) os
        = Callbacks.processList c (pre ++ post) os := by
  refine ⟨?_, ?_, processList_skip_dead m pre c post os h⟩
  · have := processList_skip_dead m [] c [] os h
    simpa [Callbacks.processList] using this
  · simpa using processList_skip_dead m [] c post os h

/-- Claim C9 witness: a push for an unsubscribed method on a concrete
registry is a no-op. -/
theorem c9_unsubscribed_witness :
    Callbacks.processList c9Cbs [c9Msg] [] = c9Cbs
    ∧ Callbacks.processList c9Cbs (c9Msg :: []) [] = Callbacks.processList c9Cbs [] []
    ∧ Callbacks.processList c9Cbs ([] ++ c9Msg :: []) []
        = Callbacks.processList c9Cbs ([] ++ []) [] :=
  c9_unsubscribed c9Cbs c9Msg [] [] [] (by decide)

/-- Claim C5: each delivery attempt in `callbacks.process` is a three-way
race: if the stream's cancellation wins, the stream is torn down (buffer
closed, entry removed) without delivering; if the deadline wins, the
stream's scope is cancelled, its buffer closed and the entry removed; if
delivery wins, the message is appended and the stream stays live; a live
subscriber with buffer room and a non-zero deadline is always delivered
to; entries of other methods are untouched, and a later sub-message of
the same frame targeting another live method is still attempted, in
order, whatever the earlier outcome was. -/
theorem c5_delivery_race (c : Callbacks) (m : ClientMsg) (cb : CallbackStream)
    (o : DeliveryOutcome) (hl : mapLookup m.method c.data = some cb)
    (hready : deliveryReady c cb o = true) :
    (o = .cancelled → cb.ctxDone = true
        ∧ c.applyOutcome m cb o
            = ({ c with data := mapErase m.method c.data },
               some (m.method, { cb with ch := { cb.ch with closed := true } })))
    ∧ (o = .timedOut → c.applyOutcome m cb o
        = ({ c with data := mapErase m.method c.data },
           some (m.method, { ctxDone := true, ch := { cb.ch with closed := true } })))
    ∧ (o = .delivered → (c.applyOutcome m cb o).2 = none
        ∧ mapLookup m.method (c.applyOutcome m cb o).1.data
            = some { cb with ch := { cb.ch with
                buf := cb.ch.buf ++ [{ message := m, err := none }] } })
    ∧ (∀ k, k ≠ m.method →
        mapLookup k (c.applyOutcome m cb o).1.data = mapLookup k c.data)
    ∧ (c.maxMessageProcessDuration ≠ 0 → cb.ctxDone = false → cb.ch.sendReady = true →
        o = .delivered)
    ∧ (∀ m2 cb2 o2 os2, m2.method ≠ m.method → mapLookup m2.method c.data = some cb2 →
        Callbacks.processList c [m, m2] (o :: o2 :: os2)
          = ((c.applyOutcome m cb o).1.applyOutcome m2 cb2 o2).1) := by
  refine ⟨?_, ?_, ?_, ?_, ?_, ?_⟩
  · intro ho
    subst ho
    refine ⟨by simpa [deliveryReady] using hready, rfl⟩
  · intro ho
    subst ho
    rfl
  · intro ho
    subst ho
    exact ⟨rfl, by simp [Callbacks.applyOutcome, mapLookup_insert]⟩
  · intro k hk
    exact applyOutcome_lookup_ne c m cb o k hk
  · intro hdur hdone hroom
    cases o with
    | delivered => rfl
    | cancelled =>
        rw [deliveryReady, hdone] at hready
        exact Bool.noConfusion hready
    | timedOut =>
        rw [deliveryReady, hdone, hroom] at hready
        simp [hdur] at hready
  · intro m2 cb2 o2 os2 hne hl2
    have hl2' : mapLookup m2.method (c.applyOutcome m cb o).1.data = some cb2 := by
      rw [applyOutcome_lookup_ne c m cb o m2.method hne]
      exact hl2
    simp only [Callbacks.processList, hl, hl2']

/-- Claim C5 witness: a stalled subscriber (live scope, full buffer) hit
by the deadline is cancelled, closed and unregistered. -/
theorem c5_delivery_race_witness :
    c5Cbs.applyOutcome c5MsgA c5Full DeliveryOutcome.timedOut
      = ({ c5Cbs with data := mapErase c5MsgA.method c5Cbs.data },
         some (c5MsgA.method, { ctxDone := true, ch := { c5Full.ch with closed := true } })) :=
  ((c5_delivery_race c5Cbs c5MsgA c5Full .timedOut (by decide) (by decide)).2.1) rfl

/-- Claim C6: during Negotiate a 503 fails immediately with no retry; any
other non-success status sleeps one fixed 60-second interval and retries,
for up to 5 attempts total, exhaustion being a terminal failure; four
non-success statuses followed by 200 yield success after exactly 4
fixed-interval retries. -/
theorem c6_negotiate_retry (c : Handshake.Client) (esc : String → String)
    (rest : List Handshake.HttpResp)
    (b0 b1 b2 b3 b4 : Except GoError Handshake.NegotiateParsed)
    (s1 s2 s3 s4 s5 : Nat) (parsed : Handshake.NegotiateParsed) :
    (Handshake.Client.Negotiate c esc (.ok 503 b0 :: rest)
        = ({ c with connectionToken := "" }, some (.statusError 503), []))
    ∧ (s1 ≠ 200 → s1 ≠ 503 → s2 ≠ 200 → s2 ≠ 503 → s3 ≠ 200 → s3 ≠ 503 →
       s4 ≠ 200 → s4 ≠ 503 → s5 ≠ 200 → s5 ≠ 503 →
        Handshake.Client.Negotiate c esc
            [.ok s1 b0, .ok s2 b1, .ok s3 b2, .ok s4 b3, .ok s5 b4]
          = ({ c with connectionToken := "" }, some (.statusError s5),
             [Handshake.retryInterval, Handshake.retryInterval, Handshake.retryInterval,
              Handshake.retryInterval, Handshake.retryInterval]))
    ∧ (s1 ≠ 200 → s1 ≠ 503 → s2 ≠ 200 → s2 ≠ 503 → s3 ≠ 200 → s3 ≠ 503 →
       s4 ≠ 200 → s4 ≠ 503 →
        Handshake.Client.Negotiate c esc
            [.ok s1 b0, .ok s2 b1, .ok s3 b2, .ok s4 b3, .ok 200 (.ok parsed)]
          = ({ c with connectionToken := esc parsed.connectionToken
                      connectionID := parsed.connectionID
                      endpoint := parsed.url }, none,
             [Handshake.retryInterval, Handshake.retryInterval, Handshake.retryInterval,
              Handshake.retryInterval])) := by
  refine ⟨?_, ?_, ?_⟩
  · simp [Handshake.Client.Negotiate, Handshake.negotiateGo]
  · intro h1 h1' h2 h2' h3 h3' h4 h4' h5 h5'
    simp [Handshake.Client.Negotiate, Handshake.negotiateGo,
      h1, h1', h2, h2', h3, h3', h4, h4', h5, h5']
  · intro h1 h1' h2 h2' h3 h3' h4 h4'
    simp [Handshake.Client.Negotiate, Handshake.negotiateGo,
      h1, h1', h2, h2', h3, h3', h4, h4']

/-- Claim C6 witness: scenario B — four 500s then 200 succeed after
exactly four fixed-interval retries. -/
theorem c6_negotiate_retry_witness :
    Handshake.Client.Negotiate hsClient id
        [.ok 500 (.error (.other "e")), .ok 500 (.error (.other "e")),
         .ok 500 (.error (.other "e")), .ok 500 (.error (.other "e")),
         .ok 200 (.ok c6Parsed)]
      = ({ hsClient with connectionToken := id c6Parsed.connectionToken
                         connectionID := c6Parsed.connectionID
                         endpoint := c6Parsed.url }, none,
         [Handshake.retryInterval, Handshake.retryInterval, Handshake.retryInterval,
          Handshake.retryInterval]) :=
  (c6_negotiate_retry hsClient id [] (.error (.other "e")) (.error (.other "e"))
      (.error (.other "e")) (.error (.other "e")) (.error (.other "e"))
      500 500 500 500 500 c6Parsed).2.2
    (by decide) (by decide) (by decide) (by decide)
    (by decide) (by decide) (by decide) (by decide)

/-- Claim C7: Start succeeds exactly when the acknowledgement parses to
the literal "started" and the single subsequent read yields a text-typed
frame whose init flag equals the sentinel 1; on success the connection is
assigned; on any failure the client is returned unchanged, so the
connection is never set. -/
theorem c7_start_handshake (c : Handshake.Client)
    (httpBody : Except GoError (Except GoError String))
    (read : Except GoError (Nat × Except GoError Handshake.HMessage)) :
    ((Handshake.Client.Start c httpBody read).2 = none ↔
      (httpBody = .ok (.ok "started")
        ∧ ∃ pcm, read = .ok (Handshake.textMessage, .ok pcm)
            ∧ pcm.s = Handshake.serverInitialized))
    ∧ ((Handshake.Client.Start c httpBody read).2 = none →
        (Handshake.Client.Start c httpBody read).1 = { c with connSet := true })
    ∧ (∀ e, (Handshake.Client.Start c httpBody read).2 = some e →
        (Handshake.Client.Start c httpBody read).1 = c) := by
  cases httpBody with
  | error e => simp [Handshake.Client.Start]
  | ok parseRes =>
      cases parseRes with
      | error e => simp [Handshake.Client.Start]
      | ok response =>
          by_cases hr : response = "started"
          · subst hr
            cases read with
            | error e => simp [Handshake.Client.Start]
            | ok tp =>
                obtain ⟨t, payload⟩ := tp
                by_cases ht : t = Handshake.textMessage
                · subst ht
                  cases payload with
                  | error e => simp [Handshake.Client.Start]
                  | ok pcm =>
                      by_cases hs : pcm.s = Handshake.serverInitialized
                      · simp [Handshake.Client.Start, hs]
                      · simp [Handshake.Client.Start, hs]
                · simp [Handshake.Client.Start, ht]
          · simp [Handshake.Client.Start, hr]

/-- Claim C7 witness: scenario C — an init frame with S equal to 1
completes the handshake; with S equal to 0 Start fails. -/
theorem c7_start_handshake_witness :
    (Handshake.Client.Start hsClient (.ok (.ok "started"))
        (.ok (Handshake.textMessage, .ok { c := "", s := 1, g := "" }))).2 = none
    ∧ (Handshake.Client.Start hsClient (.ok (.ok "started"))
        (.ok (Handshake.textMessage, .ok { c := "", s := 0, g := "" }))).2 ≠ none := by
  constructor
  · exact (c7_start_handshake hsClient (.ok (.ok "started"))
        (.ok (Handshake.textMessage, .ok { c := "", s := 1, g := "" }))).1.mpr
      ⟨rfl, ⟨{ c := "", s := 1, g := "" }, rfl, rfl⟩⟩
  · intro h
    obtain ⟨-, pcm, hp, hs⟩ := (c7_start_handshake hsClient (.ok (.ok "started"))
        (.ok (Handshake.textMessage, .ok { c := "", s := 0, g := "" }))).1.mp h
    rw [Except.ok.injEq, Prod.mk.injEq] at hp
    obtain ⟨-, hp2⟩ := hp
    rw [Except.ok.injEq] at hp2
    rw [← hp2] at hs
    exact absurd hs (by decide)

theorem negotiateGo_fail_state (esc : String → String) :
    ∀ (fuel : Nat) (resps : List Handshake.HttpResp) (c : Handshake.Client)
      (err0 : Option GoError) (sleeps : List Nat),
    (Handshake.negotiateGo esc c resps fuel err0 sleeps).2.1 ≠ none →
    (Handshake.negotiateGo esc c resps fuel err0 sleeps).1 = c := by
  intro fuel
  induction fuel with
  | zero => intro resps c err0 sleeps _; cases resps <;> rfl
  | succ n ih =>
      intro resps c err0 sleeps h
      cases resps with
      | nil => rfl
      | cons r rest =>
          cases r with
          | fail e => rfl
          | ok status body =>
              by_cases h200 : status = 200
              · subst h200
                cases body with
                | error e => simp [Handshake.negotiateGo]
                | ok parsed =>
                    exfalso
                    apply h
                    simp [Handshake.negotiateGo]
              · by_cases h503 : status = 503
                · subst h503
                  simp [Handshake.negotiateGo]
                · simp only [Handshake.negotiateGo, h200, h503, if_false,
                    if_neg h200, if_neg h503] at h ⊢
                  exact ih rest c (some (.statusError status))
                    (sleeps ++ [Handshake.retryInterval]) h

/-- Claim C8: a successful Negotiate stores the URL-escaped connection
token and the connection id, and adopts the server-returned endpoint
path, which every subsequently built URL uses (the start URL targets the
new path and carries the token); every failing Negotiate leaves the
connection token reset to empty, never a stale one. -/
theorem c8_negotiate_state (c : Handshake.Client) (esc : String → String)
    (parsed : Handshake.NegotiateParsed) (rest : List Handshake.HttpResp) :
    ((Handshake.Client.Negotiate c esc (.ok 200 (.ok parsed) :: rest)).1.connectionToken
        = esc parsed.connectionToken
      ∧ (Handshake.Client.Negotiate c esc (.ok 200 (.ok parsed) :: rest)).1.connectionID
        = parsed.connectionID
      ∧ (Handshake.Client.Negotiate c esc (.ok 200 (.ok parsed) :: rest)).1.endpoint
        = parsed.url
      ∧ (Handshake.Client.Negotiate c esc (.ok 200 (.ok parsed) :: rest)).2.1 = none)
    ∧ (esc parsed.connectionToken ≠ "" →
        ((Handshake.Client.Negotiate c esc (.ok 200 (.ok parsed) :: rest)).1.makeURL
            "start").path = parsed.url ++ "/start"
        ∧ ("connectionToken", esc parsed.connectionToken)
            ∈ ((Handshake.Client.Negotiate c esc (.ok 200 (.ok parsed) :: rest)).1.makeURL
                "start").params)
    ∧ (∀ resps, (Handshake.Client.Negotiate c esc resps).2.1 ≠ none →
        (Handshake.Client.Negotiate c esc resps).1.connectionToken = "") := by
  refine ⟨⟨rfl, rfl, rfl, rfl⟩, ?_, ?_⟩
  · intro h
    constructor
    · rfl
    · simp [Handshake.Client.Negotiate, Handshake.negotiateGo, Handshake.Client.makeURL, h]
  · intro resps h
    have hs := negotiateGo_fail_state esc 5 resps { c with connectionToken := "" } none [] h
    show (Handshake.negotiateGo esc { c with connectionToken := "" } resps 5 none []).1.connectionToken = ""
    rw [hs]

/-- Claim C8 witness: scenario A — negotiate returning the new endpoint
and token makes the start URL target the new path with the token. -/
theorem c8_negotiate_state_witness :
    ((Handshake.Client.Negotiate hsClient id (.ok 200 (.ok c6Parsed) :: [])).1.makeURL
        "start").path = c6Parsed.url ++ "/start"
    ∧ ("connectionToken", id c6Parsed.connectionToken)
        ∈ ((Handshake.Client.Negotiate hsClient id (.ok 200 (.ok c6Parsed) :: [])).1.makeURL
            "start").params :=
  (c8_negotiate_state hsClient id c6Parsed []).2.1 (by decide)

theorem carries_self (e : GoError) : e.carries e = true := by
  cases e <;> simp [GoError.carries]

theorem remove_create_lookup (i : Invocations) (d : Bool) (m : String) :
    mapLookup i.id (((i.create d m).1.remove (i.create d m).2.id).1).data = none := by
  have hlook : mapLookup i.id (i.create d m).1.data = some (i.create d m).2 := by
    simp [Invocations.create, mapLookup_insert]
  have hid : (i.create d m).2.id = i.id := rfl
  rw [hid]
  unfold Invocations.remove
  rw [hlook]
  exact mapLookup_erase i.id (i.create d m).1.data

/-- Claim C10: when argument serialization fails, `Invoke` touches neither
the registry nor the transport and returns a handle whose `Exec` and
`Unmarshal` both surface the (wrapped) serialization error; when the
outbound write fails after the entry was created, the entry is removed
from the registry and the returned handle carries the write error, while
the write attempt carried the allocated correlation id. -/
theorem c10_invoke_errors (c : Client) (d : Bool) (method : String)
    (args : List (Except GoError String)) (writeErr : Option GoError) :
    (∀ e, marshalArgs args = .error e →
        Client.Invoke c d method args writeErr
          = (c, { ctxDone := false, id := 0, method := "", ch := nilChan
                  err := some (.wrapped "failed to marshal args" e) }, none)
        ∧ (Client.Invoke c d method args writeErr).2.1.exec
            = some (.wrapped "failed to marshal args" e)
        ∧ (∀ b, (Client.Invoke c d method args writeErr).2.1.unmarshalOutcome b
            = .preErr (.wrapped "failed to marshal args" e))
        ∧ GoError.carries (.wrapped "failed to marshal args" e) e = true)
    ∧ (∀ rawArgs e, marshalArgs args = .ok rawArgs → writeErr = some e →
        mapLookup c.invocations.id
            (Client.Invoke c d method args writeErr).1.invocations.data = none
        ∧ (Client.Invoke c d method args writeErr).2.1.err = some e
        ∧ (Client.Invoke c d method args writeErr).2.2
            = some { hub := c.hub, method := method, args := rawArgs
                     invocationID := c.invocations.id }) := by
  constructor
  · intro e he
    refine ⟨?_, ?_, ?_, ?_⟩
    · simp [Client.Invoke, he]
    · simp [Client.Invoke, he, Invocation.exec]
    · intro b
      simp [Client.Invoke, he, Invocation.unmarshalOutcome]
    · rw [GoError.carries]
      simp [carries_self e]
  · intro rawArgs e hok hw
    refine ⟨?_, ?_, ?_⟩
    · simp only [Client.Invoke, hok, hw]
      exact remove_create_lookup c.invocations d method
    · simp [Client.Invoke, hok, hw]
    · simp [Client.Invoke, hok, hw, Invocations.create]

/-- Claim C10 witness: a failing serialization leaves an error-only
handle; a failing write removes the freshly created entry. -/
theorem c10_invoke_errors_witness :
    (Client.Invoke c10Client false "m" [Except.error (.jsonError "boom")] none).2.1.exec
        = some (.wrapped "failed to marshal args" (.jsonError "boom"))
    ∧ mapLookup c10Client.invocations.id
        (Client.Invoke c10Client false "m2" [Except.ok "1"]
          (some (.other "pipe"))).1.invocations.data = none :=
  ⟨((c10_invoke_errors c10Client false "m" [Except.error (.jsonError "boom")] none).1
      (.jsonError "boom") rfl).2.1,
   ((c10_invoke_errors c10Client false "m2" [Except.ok "1"] (some (.other "pipe"))).2
      ["1"] (.other "pipe") rfl rfl).1⟩

end SignalR
